import Mathlib

/-!
# breeze: static file handler and connection engine

A shallow embedding of `src/mod_static.c` and `src/http_connection.c`.
C strings are lists of characters (the bytes before the terminating NUL),
machine integers are `Int`/`Nat` with explicit wrapping where the width
matters, and the operating system and the response pipeline are explicit
state.
-/

namespace Breeze

/-! ## Integers and formatted output -/

/-- Two's-complement value of a 32-bit `int` computation. -/
def wrap32 (x : Int) : Int := (x + 2147483648) % 4294967296 - 2147483648

/-- Two's-complement value of a 64-bit `long` / `time_t` computation. -/
def wrap64 (x : Int) : Int :=
  (x + 9223372036854775808) % 18446744073709551616 - 9223372036854775808

/-- Value of a `size_t` computation (unsigned, 64 bits). -/
def wrap_size (x : Int) : Nat := (x % 18446744073709551616).toNat

/-- The character of one decimal digit. -/
def digit_char (d : Nat) : Char := Char.ofNat (48 + d)

/-- Output of `printf` for `%zu` / `%lu`: the decimal digits, most significant first. -/
def fmt_unsigned (n : Nat) : List Char :=
  if n = 0 then ['0'] else (Nat.digits 10 n).reverse.map digit_char

/-- Output of `printf` for `%d` / `%ld`: a minus sign for a negative value, then the digits. -/
def fmt_signed (i : Int) : List Char :=
  if i < 0 then '-' :: fmt_unsigned i.natAbs else fmt_unsigned i.natAbs

/-- The string `snprintf(buf, size, ...)` leaves in `buf`: at most `size - 1` characters
of the formatted output (the last byte is the NUL). -/
def snprintf (size : Nat) (out : List Char) : List Char := out.take (size - 1)

/-! ## Path join of `static_file_handle` -/

/-- One past the last byte index written by `strncat(dst, src, n)` when `dst` holds a
string of `dst_len` characters: `min |src| n` characters are appended, then a NUL. -/
def strncat_end (dst_len : Nat) (src : List Char) (n : Nat) : Nat :=
  dst_len + min src.length n + 1

/-- The string left in `dst` by `strncat(dst, src, n)`. -/
def strncat (dst src : List Char) (n : Nat) : List Char := dst ++ src.take n

/-- Size of the local `char path[2048]` of `static_file_handle`. -/
def PATH_SIZE : Nat := 2048

/-- Bytes of `path` used by `strncpy(path, conf->root, 2048)` followed by
`strncat(path, req->path, 2048 - len)`, `len = strlen(conf->root)`. -/
def path_join_extent (root p : List Char) : Nat :=
  strncat_end root.length p (wrap_size (2048 - (root.length : Int)))

/-- The file path opened by `static_file_handle`. -/
def path_join (root p : List Char) : List Char :=
  strncat root p (wrap_size (2048 - (root.length : Int)))

/-! ## `generate_etag` -/

/-- The fields of `struct stat` the handler reads. `st_size` is the size of an open
file, hence not negative. -/
structure stat where
  st_mtime : Int
  st_size : Nat
deriving DecidableEq, Repr

/-- A stat within the range of its C types (`time_t`, `off_t`: 64 bits, signed). -/
def stat_in_range (st : stat) : Prop :=
  -9223372036854775808 ≤ st.st_mtime ∧ st.st_mtime < 9223372036854775808 ∧
    st.st_size < 9223372036854775808

/-- The formatted output of `"etag-%ld-%zu"` for `st->st_mtime`, `st->st_size`. -/
def etag_format (st : stat) : List Char :=
  "etag-".toList ++ fmt_signed st.st_mtime ++ '-' :: fmt_unsigned st.st_size

/-- The key `generate_etag` leaves in `tag_buf[128]`. -/
def etag_key (st : stat) : List Char := snprintf 128 (etag_format st)

/-- The salt passed to `crypt`. -/
def ETAG_SALT : List Char := "$1$breeze".toList

/-- The tag `generate_etag` returns: `crypt(tag_buf, "$1$breeze") + 10`, the hash with
the `$id$salt$` part skipped. `crypt` is the C library's. -/
def generate_etag (crypt : List Char → List Char → List Char) (st : stat) : List Char :=
  (crypt (etag_key st) ETAG_SALT).drop 10

/-! ## MIME registry: `standard_types` and `mod_static_init` -/

/-- A C string: the characters before the terminating NUL. -/
abbrev CStr := List Char

/-- Rows of `standard_types`: a content type and its extensions (up to the `NULL`). -/
structure mime_type_t where
  content_type : CStr
  exts : List CStr

def FILE_TYPE_COUNT : Nat := 10

def standard_types : List mime_type_t := [
  ⟨"text/html".toList,                ["html".toList, "htm".toList, "shtml".toList]⟩,
  ⟨"text/css".toList,                 ["css".toList]⟩,
  ⟨"text/xml".toList,                 ["xml".toList]⟩,
  ⟨"text/plain".toList,               ["txt".toList]⟩,
  ⟨"image/png".toList,                ["png".toList]⟩,
  ⟨"image/gif".toList,                ["gif".toList]⟩,
  ⟨"image/tiff".toList,               ["tif".toList, "tiff".toList]⟩,
  ⟨"image/jpeg".toList,               ["jpg".toList, "jpeg".toList]⟩,
  ⟨"image/x-ms-bmp".toList,           ["bmp".toList]⟩,
  ⟨"image/svg+xml".toList,            ["svg".toList, "svgz".toList]⟩,
  ⟨"application/x-javascript".toList, ["js".toList]⟩]

/-- The hash table `std_mime_type_hash`: entries in insertion order, and the number of
entries `hcreate_r` was asked to hold. -/
structure hsearch_data where
  capacity : Nat
  entries : List (CStr × CStr)

/-- The call `hsearch_r(item, ENTER, ...)`: an existing key keeps its entry, a new key is
added while the table has room. -/
def hsearch_enter (item : CStr × CStr) (htab : hsearch_data) : hsearch_data :=
  if htab.entries.any (fun e => e.1 = item.1) then htab
  else if htab.entries.length < htab.capacity then
    { htab with entries := htab.entries ++ [item] }
  else htab

/-- The call `hsearch_r(item, FIND, ...)`: the data of the entry whose key compares
equal, if any. -/
def hsearch_find (key : CStr) (htab : hsearch_data) : Option CStr :=
  (htab.entries.find? (fun e => e.1 = key)).map (fun e => e.2)

/-- The table built by `mod_static_init`: `hcreate_r(size * 2)`, then every extension of
every row entered with the row's content type. -/
def mod_static_init : hsearch_data :=
  standard_types.foldl
    (fun htab row =>
      (row.exts.take FILE_TYPE_COUNT).foldl
        (fun htab ext => hsearch_enter (ext, row.content_type) htab) htab)
    ⟨standard_types.length * 2, []⟩

/-! ## Request, response, handler context -/

structure request_t where
  path : CStr
  version : Nat
  headers : List (CStr × CStr)

/-- ASCII lower-casing of a string. -/
def lowercase (s : CStr) : CStr := s.map Char.toLower

/-- Modelled from the spec: `request_get_header` (request.c is not part of the sources).
Header names are case-folded on insertion and lookup, last write wins on a duplicate. -/
def request_get_header (req : request_t) (name : CStr) : Option CStr :=
  (req.headers.reverse.find? (fun h => lowercase h.1 = lowercase name)).map (fun h => h.2)

/-- The steps a handler registers as completion callbacks. -/
inductive Callback
  | static_file_write_content
  | static_file_cleanup
deriving DecidableEq, Repr

/-- What the response pipeline has been asked to put on the stream. -/
inductive Emitted
  | status_response (code : Nat) (message : Option CStr)
  | header_block (status : Nat) (content_length : Nat) (headers : List (CStr × CStr))
  | file_range (fd : Int) (offset : Nat) (length : Nat)
deriving DecidableEq, Repr

structure response_t where
  status : Nat
  version : Nat
  content_length : Nat
  headers : List (CStr × CStr)
  _done : Bool
  out : List Emitted
  on_complete : Option Callback
deriving DecidableEq, Repr

/-- Modelled from the spec: `response_create` (response.c is not part of the sources), a
response with nothing set and nothing sent. -/
def response_create : response_t := ⟨0, 0, 0, [], false, [], none⟩

/-- Modelled from the spec: `response_set_header` (response.c is not part of the
sources). Inserts or overwrites, keeping insertion order; does nothing once the response
is done. -/
def response_set_header (resp : response_t) (name value : CStr) : response_t :=
  if resp._done then resp
  else if resp.headers.any (fun h => h.1 = name) then
    { resp with headers := resp.headers.map (fun h => if h.1 = name then (name, value) else h) }
  else { resp with headers := resp.headers ++ [(name, value)] }

/-- The value a response carries for a header name. -/
def response_header (resp : response_t) (name : CStr) : Option CStr :=
  (resp.headers.find? (fun h => h.1 = name)).map (fun h => h.2)

structure mod_static_conf_t where
  root : CStr
  enable_list_dir : Int
  enable_etag : Int
  enable_range_req : Int
  expire_hours : Int

/-- A slot of the context stack (`ctx_state_t`), read through the member it was written
through. -/
inductive ctx_state_t
  | as_int (v : Int)
  | as_long (v : Int)
deriving DecidableEq, Repr

/-- Modelled from the spec: `handler_ctx_t` (declared in http.h, not part of the
sources): the handler configuration and a LIFO stack of scalar slots. -/
structure handler_ctx_t where
  conf : mod_static_conf_t
  stack : List ctx_state_t

/-- Modelled from the spec: `context_push`. -/
def context_push (ctx : handler_ctx_t) (val : ctx_state_t) : handler_ctx_t :=
  { ctx with stack := val :: ctx.stack }

/-- Modelled from the spec: `context_pop`, the top slot and the stack without it. -/
def context_pop (ctx : handler_ctx_t) : Option (ctx_state_t × handler_ctx_t) :=
  match ctx.stack with
  | [] => none
  | v :: rest => some (v, { ctx with stack := rest })

/-- Modelled from the spec: `context_peek`, the top slot, left on the stack. -/
def context_peek (ctx : handler_ctx_t) : Option ctx_state_t := ctx.stack.head?

/-! ## `handle_content_type` -/

/-- The loop `for (i = start; i > 0; i--) if (filepath[i] == '.') { dot_pos = i; break; }`:
the index it stops at, `none` when it runs down to `i = 0` (`dot_pos` stays `-1`). -/
def scan_dot (filepath : CStr) : Nat → Option Nat
  | 0 => none
  | i + 1 => if filepath[i + 1]? = some '.' then some (i + 1) else scan_dot filepath i

/-- The value of `dot_pos` after the loop of `handle_content_type`, started at `len - 1`. -/
def dot_pos (filepath : CStr) : Option Nat := scan_dot filepath (filepath.length - 1)

/-- The C string found at `ext` after `strncpy(ext, src, 20)`: `src` itself when it is
shorter than the buffer, otherwise its first 20 characters, unterminated, so that the
string runs on into `mem`, the bytes that follow the buffer up to the next NUL. -/
def strncpy_ext (src mem : CStr) : CStr :=
  if src.length < 20 then src else src.take 20 ++ mem

/-- Modelled from the spec: `strlowercase(in, out, len)` (common.h is not part of the
sources) lower-cases the first `len` bytes of the buffer. -/
def strlowercase (s : CStr) (len : Nat) : CStr := lowercase (s.take len) ++ s.drop len

/-- The content type `handle_content_type` passes to `response_set_header`, `none` when
it returns without setting one. -/
def lookup_content_type (mem : CStr) (filepath : CStr) : Option CStr :=
  match dot_pos filepath with
  | none => none
  | some p =>
    let ext := strlowercase (strncpy_ext (filepath.drop (1 + p)) mem) 20
    hsearch_find ext mod_static_init

def handle_content_type (mem : CStr) (resp : response_t) (filepath : CStr) : response_t :=
  match lookup_content_type mem filepath with
  | none => resp
  | some content_type => response_set_header resp "Content-Type".toList content_type

/-! ## `handle_cache` -/

/-- Functions of the C library and of common.h the handler calls, and what the operating
system answers. -/
structure Env where
  /-- What `parse_http_date` stores on success (return value 0), `none` on failure. -/
  parse_http_date : CStr → Option Int
  /-- What `format_http_date` leaves in the buffer. -/
  format_http_date : Int → CStr
  /-- The C library's `crypt(key, salt)`. -/
  crypt : CStr → CStr → CStr
  /-- The call `open(path, O_RDONLY)`: the descriptor, or the `errno` of the failure. -/
  sys_open : CStr → Except Nat Nat
  /-- The call `fstat(fd, &st)`: the stat, or the `errno` of the failure. -/
  fstat : Nat → Except Nat stat
  /-- The value `errno` has when `perror(...)` returns, given the value it had at the
  call: `perror` writes to `stderr` and may set `errno` while doing so. -/
  perror : Nat → Nat
  /-- Whether `response_send_file` returns a negative value (setup failure). -/
  send_file_fails : Bool
  /-- The bytes that follow `ext[20]` on the stack of `handle_content_type`. -/
  mem : CStr

def handle_cache (env : Env) (req : request_t) (resp : response_t) (st : stat)
    (conf : mod_static_conf_t) : Bool × response_t :=
  let mtime := st.st_mtime
  let if_mod_since := request_get_header req "if-modified-since".toList
  let not_modified : Bool :=
    match if_mod_since with
    | none => false
    | some v =>
      match env.parse_http_date v with
      | none => false
      | some req_mtime => decide (req_mtime = mtime)
  let resp := response_set_header resp "Last-Modified".toList (env.format_http_date mtime)
  let r : Bool × response_t :=
    if conf.enable_etag ≠ 0 then
      let etag := generate_etag env.crypt st
      let not_modified :=
        if not_modified then
          match request_get_header req "if-none-match".toList with
          | none => false
          | some if_none_match => if etag ≠ if_none_match then false else not_modified
        else not_modified
      (not_modified, response_set_header resp "ETag".toList etag)
    else (not_modified, resp)
  let not_modified := r.1
  let resp := r.2
  let resp :=
    if 0 ≤ conf.expire_hours then
      let mtime := wrap64 (mtime + wrap32 (conf.expire_hours * 3600))
      let resp := response_set_header resp "Expires".toList (env.format_http_date mtime)
      let cache_control :=
        snprintf 20 ("max-age=".toList ++ fmt_signed (wrap32 (conf.expire_hours * 3600)))
      response_set_header resp "Cache-Control".toList cache_control
    else response_set_header resp "Cache-Control".toList "no-cache".toList
  (not_modified, resp)

/-! ## The handler steps -/

def STATUS_OK : Nat := 200
def STATUS_NOT_MODIFIED : Nat := 304
def STATUS_BAD_REQUEST : Nat := 400
def STATUS_FORBIDDEN : Nat := 403
def STATUS_NOT_FOUND : Nat := 404

def EACCES : Nat := 13
def EISDIR : Nat := 21

inductive handler_result
  | HANDLER_DONE
  | HANDLER_UNFISHED
deriving DecidableEq, Repr

/-- Calls of the handler that open or close a descriptor. -/
inductive SysEvent
  | opened (fd : Int)
  | closed (fd : Int)
deriving DecidableEq, Repr

/-- What a handler step reads and writes: the response, the context the engine passed
(`none` is the `NULL` pointer), `errno`, and the descriptors opened and closed so far. -/
structure State where
  resp : response_t
  ctx : Option handler_ctx_t
  errno : Nat
  sys : List SysEvent

/-- A step that does not return. -/
inductive Fault
  | null_context
  | null_request
  | empty_stack
  | out_of_steps
deriving DecidableEq, Repr

/-- Modelled from the spec: `response_send_status` (response.c is not part of the
sources) emits a minimal complete response, the status line plus a short body if a
message is given, sets `done`, and reports the handler as done. -/
def response_send_status (s : State) (code : Nat) (message : Option CStr) :
    handler_result × State :=
  (handler_result.HANDLER_DONE,
    { s with resp := { s.resp with
        out := s.resp.out ++ [Emitted.status_response code message], _done := true } })

/-- Modelled from the spec: `response_send_headers` (response.c is not part of the
sources) writes the status line and all headers and registers the completion callback. -/
def response_send_headers (resp : response_t) (on_complete : Callback) : response_t :=
  { resp with
      out := resp.out ++ [Emitted.header_block resp.status resp.content_length resp.headers],
      on_complete := some on_complete }

/-- Modelled from the spec: `response_send_file` (response.c is not part of the sources)
starts the transfer of `length` bytes at `offset` of the descriptor and registers the
completion callback; a setup failure returns a negative value and starts nothing. -/
def response_send_file (env : Env) (resp : response_t) (fd : Int) (offset length : Nat)
    (on_complete : Callback) : Int × response_t :=
  if env.send_file_fails then (-1, resp)
  else (0, { resp with
      out := resp.out ++ [Emitted.file_range fd offset length],
      on_complete := some on_complete })

def static_file_handler_error (s : State) : handler_result × State :=
  if s.errno = EACCES ∨ s.errno = EISDIR then
    response_send_status s STATUS_FORBIDDEN (some "Access Denied".toList)
  else
    response_send_status s STATUS_NOT_FOUND (some "Requested resource not found".toList)

def static_file_handle (env : Env) (req : request_t) (s : State) :
    Except Fault (handler_result × State) :=
  match s.ctx with
  | none => .error Fault.null_context
  | some ctx =>
    let conf := ctx.conf
    if req.path.head? ≠ some '/' then
      .ok (response_send_status s STATUS_BAD_REQUEST
        (some "Request path must starts with /".toList))
    else
      let path := path_join conf.root req.path
      match env.sys_open path with
      | .error e =>
        -- perror("Resource not found");
        .ok (static_file_handler_error { s with errno := env.perror e })
      | .ok fd =>
        let s := { s with sys := s.sys ++ [SysEvent.opened fd] }
        match env.fstat fd with
        | .error e =>
          -- perror("Error fstat");
          .ok (static_file_handler_error { s with errno := env.perror e })
        | .ok st =>
          let resp := { s.resp with status := STATUS_OK, content_length := st.st_size }
          let resp := handle_content_type env.mem resp path
          let r := handle_cache env req resp st conf
          if r.1 then
            .ok (response_send_status { s with resp := r.2 } STATUS_NOT_MODIFIED none)
          else
            let ctx := context_push ctx (ctx_state_t.as_int fd)
            let ctx := context_push ctx (ctx_state_t.as_long st.st_size)
            let resp := response_send_headers r.2 Callback.static_file_write_content
            .ok (handler_result.HANDLER_UNFISHED, { s with resp := resp, ctx := some ctx })

/-- The member `as_long` of a slot. -/
def ctx_state_t.get_long : ctx_state_t → Int
  | .as_int v => v
  | .as_long v => v

/-- The member `as_int` of a slot. -/
def ctx_state_t.get_int : ctx_state_t → Int
  | .as_int v => v
  | .as_long v => wrap32 v

def static_file_write_content (env : Env) (_req : request_t) (s : State) :
    Except Fault (handler_result × State) :=
  match s.ctx with
  | none => .error Fault.null_context
  | some ctx =>
    match context_pop ctx with
    | none => .error Fault.empty_stack
    | some (top, ctx) =>
      let size := wrap_size top.get_long
      match context_peek ctx with
      | none => .error Fault.empty_stack
      | some slot =>
        let fd := slot.get_int
        let s := { s with ctx := some ctx }
        let r := response_send_file env s.resp fd 0 size Callback.static_file_cleanup
        if r.1 < 0 then
          .ok (response_send_status { s with resp := r.2 } STATUS_NOT_FOUND
            (some "Error sending file to client".toList))
        else .ok (handler_result.HANDLER_UNFISHED, { s with resp := r.2 })

def static_file_cleanup (_env : Env) (_req : request_t) (s : State) :
    Except Fault (handler_result × State) :=
  match s.ctx with
  | none => .error Fault.null_context
  | some ctx =>
    match context_pop ctx with
    | none => .error Fault.empty_stack
    | some (top, ctx) =>
      let fd := top.get_int
      .ok (handler_result.HANDLER_DONE,
        { s with ctx := some ctx, sys := s.sys ++ [SysEvent.closed fd] })

/-! ## Completion callbacks -/

def run_callback (env : Env) (req : request_t) (cb : Callback) (s : State) :
    Except Fault (handler_result × State) :=
  match cb with
  | .static_file_write_content => static_file_write_content env req s
  | .static_file_cleanup => static_file_cleanup env req s

/-- Modelled from the spec: the response pipeline (response.c is not part of the
sources) invokes the registered completion callback when the outstanding write or
transfer completes; this runs the callbacks until none is registered, at most `n` of
them. -/
def complete_io (env : Env) (req : request_t) : Nat → State → Except Fault State
  | 0, s =>
    match s.resp.on_complete with
    | none => .ok s
    | some _ => .error Fault.out_of_steps
  | n + 1, s =>
    match s.resp.on_complete with
    | none => .ok s
    | some cb =>
      match run_callback env req cb { s with resp := { s.resp with on_complete := none } } with
      | .error f => .error f
      | .ok r => complete_io env req n r.2

/-- The static file handler from its first invocation to the end of its last scheduled
step. -/
def run_static_file_handler (env : Env) (req : request_t) (s : State) : Except Fault State :=
  match static_file_handle env req s with
  | .error f => .error f
  | .ok r => complete_io env req 2 r.2

/-- How often `close(fd)` was called. -/
def close_count (fd : Int) (sys : List SysEvent) : Nat :=
  sys.count (SysEvent.closed fd)

/-! ## Connection engine (`http_connection.c`) -/

/-- The type `handler_func`. -/
abbrev handler_func := Env → request_t → State → Except Fault (handler_result × State)

structure server_t where
  handler : handler_func
  handler_conf : mod_static_conf_t

/-- The fields of `connection_t` the engine uses; `none` is a `NULL` pointer. -/
structure connection_t where
  server : server_t
  request : Option request_t
  response : Option response_t

/-- The connection together with the process state around it: `errno`, the descriptors
opened and closed so far, the context of the running handler, whether
`connection_close` was called. -/
structure ConnState where
  conn : connection_t
  ctx : Option handler_ctx_t
  errno : Nat
  sys : List SysEvent
  close_requested : Bool

def connection_close (c : ConnState) : ConnState := { c with close_requested := true }

def connection_run_handler (env : Env) (c : ConnState) (handler : handler_func) :
    Except Fault ConnState :=
  match c.conn.request, c.conn.response with
  | some req, some resp =>
    -- ctx = NULL; //TODO Implement context
    match handler env req ⟨resp, none, c.errno, c.sys⟩ with
    | .error f => .error f
    | .ok (res, s) =>
      let resp :=
        if res = handler_result.HANDLER_DONE then { s.resp with _done := true } else s.resp
      .ok { c with conn := { c.conn with response := some resp },
                   ctx := s.ctx, errno := s.errno, sys := s.sys }
  | _, _ => .error Fault.null_request

/-- The read callback `_on_http_header_data`; `parse` is `request_parse_headers`
(request.c is not part of the sources): the populated request on `STATUS_COMPLETE`. -/
def _on_http_header_data (env : Env) (parse : request_t → CStr → Option request_t)
    (c : ConnState) (data : CStr) : Except Fault ConnState :=
  match c.conn.request, c.conn.response with
  | some req, some resp =>
    match parse req data with
    | none => .ok (connection_close c)
    | some req =>
      let resp := { resp with version := req.version }
      connection_run_handler env
        { c with conn := { c.conn with request := some req, response := some resp } }
        c.conn.server.handler
  | _, _ => .ok (connection_close c)

/-- The close hook `_connection_close_handler`: its body is empty. -/
def _connection_close_handler (c : ConnState) : ConnState := c

/-! ## Concrete inputs -/

/-- A stand-in for `crypt` that keeps its key readable: the salt, a `$`, the key. -/
def sample_crypt (key salt : CStr) : CStr := salt ++ '$' :: key

/-- The configuration `main` sets up for the root `/srv`, the unset fields zero. -/
def sample_conf : mod_static_conf_t := ⟨"/srv".toList, 0, 0, 0, 24⟩

/-- A file of 5 bytes with modification time 784111777. -/
def sample_stat : stat := ⟨784111777, 5⟩

/-- An environment in which every path opens as descriptor 3 on the sample file, the
only date that parses is the one standing for the sample file's mtime, and `perror`
leaves `errno` as it is. -/
def sample_env : Env :=
  { parse_http_date := fun v =>
      if v = "Sun, 06 Nov 1994 08:49:37 GMT".toList then some 784111777 else none,
    format_http_date := fun t => fmt_signed t,
    crypt := sample_crypt,
    sys_open := fun _ => .ok 3,
    fstat := fun _ => .ok sample_stat,
    perror := fun e => e,
    send_file_fails := false,
    mem := [] }

def sample_request : request_t := ⟨"/index.html".toList, 1, []⟩

/-- The sample request with `If-Modified-Since` equal to the file's mtime. -/
def sample_conditional_request : request_t :=
  ⟨"/index.html".toList, 1,
    [("If-Modified-Since".toList, "Sun, 06 Nov 1994 08:49:37 GMT".toList)]⟩

/-- A fresh response and an empty context stack, nothing opened yet. -/
def sample_state : State := ⟨response_create, some ⟨sample_conf, []⟩, 0, []⟩

/-- The sample environment with `fstat` failing with the given `errno`. -/
def sample_env_fstat_error (e : Nat) : Env := { sample_env with fstat := fun _ => .error e }

/-- The sample environment with `response_send_file` failing at setup. -/
def sample_env_send_error : Env := { sample_env with send_file_fails := true }

def EBADF : Nat := 9
/-- The status code of the status response a handler step sent last, if it sent one. -/
def sent_status (r : Except Fault (handler_result × State)) : Option Nat :=
  match r with
  | .error _ => none
  | .ok (_, s) =>
    match s.resp.out.getLast? with
    | some (Emitted.status_response code _) => some code
    | _ => none

/-- A connection of the server `main` sets up, holding the sample request. -/
def sample_conn : connection_t :=
  ⟨⟨static_file_handle, sample_conf⟩, some sample_request, some response_create⟩

/-! ## The extension rule in the spec's words -/

/-- The final path segment: the part after the last `/`. -/
def final_segment (p : CStr) : CStr :=
  (p.reverse.takeWhile (fun c => c ≠ '/')).reverse

/-- The extension as the spec words it: the substring after the last `.` of the final
path segment, `none` when that segment contains no `.`. -/
def extension (p : CStr) : Option CStr :=
  if '.' ∈ final_segment p then
    some ((final_segment p).reverse.takeWhile (fun c => c ≠ '.')).reverse
  else none

/-- The content type `standard_types` lists for an extension. -/
def registered_type (ext : CStr) : Option CStr :=
  (standard_types.find? (fun row => ext ∈ row.exts)).map (fun row => row.content_type)

/-- The Content-Type of a path as the spec words it: the type registered for the
lower-cased extension, `none` when there is no extension or it is not registered. -/
def spec_content_type (p : CStr) : Option CStr :=
  (extension p).bind (fun ext => registered_type (lowercase ext))

/-- Every extension listed in `standard_types`. -/
def registered_exts : List CStr := standard_types.flatMap (fun row => row.exts)

/-! ## Theorems -/

/-! ### Decimal output is injective -/

/-- Reading a decimal digit character back. -/
theorem digit_char_toNat (d : Nat) (h : d < 10) : (digit_char d).toNat - 48 = d := by
  interval_cases d <;> decide

theorem digit_char_ne_minus (d : Nat) (h : d < 10) : digit_char d ≠ '-' := by
  interval_cases d <;> decide

theorem map_digit_char_inj (l₁ l₂ : List Nat) (h₁ : ∀ d ∈ l₁, d < 10) (h₂ : ∀ d ∈ l₂, d < 10)
    (h : l₁.map digit_char = l₂.map digit_char) : l₁ = l₂ := by
  have key : ∀ l : List Nat, (∀ d ∈ l, d < 10) →
      (l.map digit_char).map (fun c => c.toNat - 48) = l := by
    intro l hl
    induction l with
    | nil => rfl
    | cons a t ih =>
      simp only [List.map_cons]
      rw [digit_char_toNat a (hl a (List.mem_cons_self _ _)),
        ih (fun d hd => hl d (List.mem_cons_of_mem _ hd))]
  rw [← key l₁ h₁, ← key l₂ h₂, h]

theorem fmt_unsigned_no_minus (n : Nat) : '-' ∉ fmt_unsigned n := by
  unfold fmt_unsigned
  split
  · decide
  · intro hmem
    rcases List.mem_map.mp hmem with ⟨d, hd, hc⟩
    exact digit_char_ne_minus d (Nat.digits_lt_base (by norm_num) (List.mem_reverse.mp hd)) hc

theorem fmt_unsigned_zero_iff (n : Nat) : fmt_unsigned n = ['0'] ↔ n = 0 := by
  constructor
  · intro h
    by_contra hn
    unfold fmt_unsigned at h
    rw [if_neg hn] at h
    have h0 : (Nat.digits 10 n).reverse = [0] := by
      refine map_digit_char_inj _ [0] ?_ ?_ h
      · intro d hd
        exact Nat.digits_lt_base (by norm_num) (List.mem_reverse.mp hd)
      · intro d hd
        simp at hd
        omega
    have h1 : Nat.digits 10 n = [0] := by
      have := congrArg List.reverse h0
      simpa using this
    have h2 := Nat.getLast_digit_ne_zero 10 hn
    simp [h1] at h2
  · rintro rfl
    rfl

theorem fmt_unsigned_inj (n m : Nat) (h : fmt_unsigned n = fmt_unsigned m) : n = m := by
  by_cases hn : n = 0
  · subst hn
    exact ((fmt_unsigned_zero_iff m).mp h.symm).symm
  by_cases hm : m = 0
  · subst hm
    exact (fmt_unsigned_zero_iff n).mp h
  unfold fmt_unsigned at h
  rw [if_neg hn, if_neg hm] at h
  have h0 : (Nat.digits 10 n).reverse = (Nat.digits 10 m).reverse := by
    apply map_digit_char_inj _ _ _ _ h
    · intro d hd
      exact Nat.digits_lt_base (by norm_num) (List.mem_reverse.mp hd)
    · intro d hd
      exact Nat.digits_lt_base (by norm_num) (List.mem_reverse.mp hd)
  exact Nat.digits_inj_iff.mp (List.reverse_injective h0)

theorem fmt_signed_inj (i j : Int) (h : fmt_signed i = fmt_signed j) : i = j := by
  unfold fmt_signed at h
  by_cases hi : i < 0 <;> by_cases hj : j < 0
  · rw [if_pos hi, if_pos hj] at h
    have := fmt_unsigned_inj _ _ (List.cons_injective h)
    omega
  · rw [if_pos hi, if_neg hj] at h
    exact absurd (h ▸ List.mem_cons_self _ _) (fmt_unsigned_no_minus _)
  · rw [if_neg hi, if_pos hj] at h
    exact absurd (h ▸ List.mem_cons_self _ _) (fmt_unsigned_no_minus _)
  · rw [if_neg hi, if_neg hj] at h
    have := fmt_unsigned_inj _ _ h
    omega

theorem fmt_unsigned_length (n : Nat) (h : n < 18446744073709551616) :
    (fmt_unsigned n).length ≤ 20 := by
  unfold fmt_unsigned
  split
  · simp
  · rename_i hn
    simp only [List.length_map, List.length_reverse]
    have h1 := Nat.base_pow_length_digits_le 10 n (by norm_num) hn
    by_contra hlen
    have h2 : 10 ^ 21 ≤ 10 ^ (Nat.digits 10 n).length :=
      Nat.pow_le_pow_right (by norm_num) (by omega)
    have h3 : (10 : Nat) ^ 21 = 1000000000000000000000 := by norm_num
    omega

theorem fmt_signed_length (i : Int) (hlo : -9223372036854775808 ≤ i)
    (hhi : i < 9223372036854775808) : (fmt_signed i).length ≤ 20 := by
  unfold fmt_signed
  have hb : i.natAbs < 10000000000000000000 := by omega
  have hlen : (fmt_unsigned i.natAbs).length ≤ 19 := by
    unfold fmt_unsigned
    split
    · simp
    · rename_i hn
      simp only [List.length_map, List.length_reverse]
      have h1 := Nat.base_pow_length_digits_le 10 i.natAbs (by norm_num) hn
      by_contra hlen
      have h2 : 10 ^ 20 ≤ 10 ^ (Nat.digits 10 i.natAbs).length :=
        Nat.pow_le_pow_right (by norm_num) (by omega)
      have h3 : (10 : Nat) ^ 20 = 100000000000000000000 := by norm_num
      omega
  split
  · simp only [List.length_cons]
    omega
  · omega

theorem append_cons_inj_left {α : Type} (c : α) :
    ∀ (x₁ x₂ z₁ z₂ : List α), c ∉ x₁ → c ∉ x₂ → x₁ ++ c :: z₁ = x₂ ++ c :: z₂ →
      x₁ = x₂ ∧ z₁ = z₂
  | [], [], _, _, _, _, h => ⟨rfl, List.tail_eq_of_cons_eq h⟩
  | [], b :: x₂, _, _, _, h₂, h => by
    simp only [List.nil_append, List.cons_append, List.cons.injEq] at h
    exact absurd (h.1 ▸ List.mem_cons_self _ _) h₂
  | a :: x₁, [], _, _, h₁, _, h => by
    simp only [List.nil_append, List.cons_append, List.cons.injEq] at h
    exact absurd (h.1 ▸ List.mem_cons_self _ _) h₁
  | a :: x₁, b :: x₂, z₁, z₂, h₁, h₂, h => by
    simp only [List.cons_append, List.cons.injEq] at h
    obtain ⟨hab, ht⟩ := h
    have ih := append_cons_inj_left c x₁ x₂ z₁ z₂
      (fun hm => h₁ (List.mem_cons_of_mem _ hm)) (fun hm => h₂ (List.mem_cons_of_mem _ hm)) ht
    exact ⟨by rw [hab, ih.1], ih.2⟩

theorem etag_format_inj (s t : stat) (h : etag_format s = etag_format t) : s = t := by
  unfold etag_format at h
  rw [List.append_assoc, List.append_assoc] at h
  have h1 := congrArg List.reverse (List.append_cancel_left h)
  simp only [List.reverse_append, List.reverse_cons, List.append_assoc,
    List.singleton_append] at h1
  have h2 := append_cons_inj_left '-' _ _ _ _
    (fun hm => fmt_unsigned_no_minus _ (List.mem_reverse.mp hm))
    (fun hm => fmt_unsigned_no_minus _ (List.mem_reverse.mp hm)) h1
  have e1 := fmt_signed_inj _ _ (List.reverse_injective h2.2)
  have e2 := fmt_unsigned_inj _ _ (List.reverse_injective h2.1)
  cases s; cases t; simp_all

theorem etag_format_length (st : stat) (hlo : -9223372036854775808 ≤ st.st_mtime)
    (hhi : st.st_mtime < 9223372036854775808) (hsz : st.st_size < 18446744073709551616) :
    (etag_format st).length ≤ 46 := by
  unfold etag_format
  have h1 := fmt_signed_length _ hlo hhi
  have h2 := fmt_unsigned_length _ hsz
  simp only [List.length_append, List.length_cons]
  have : "etag-".toList.length = 5 := by decide
  omega

/-! ### Path join (C10) -/

/-- Inside the buffer exactly when the request path is shorter than the room left. -/
theorem path_join_extent_le_iff (root p : CStr) (h : root.length ≤ 1023) :
    path_join_extent root p ≤ PATH_SIZE ↔ p.length < 2048 - root.length := by
  unfold path_join_extent strncat_end wrap_size PATH_SIZE
  have e : ((2048 - (root.length : Int)) % 18446744073709551616).toNat
      = 2048 - root.length := by omega
  rw [e]
  omega

/-- C10: for the document root `/srv` (length 4) and the request path `/aaa...a` of 2044
characters, which starts with `/`, the join writes 2049 bytes: `strncat` appends
`2048 - len` characters and then the terminating NUL, one byte past `path[2048]`. -/
theorem path_join_overflow :
    ("/srv".toList).length ≤ 1023 ∧
    ('/' :: List.replicate 2043 'a').head? = some '/' ∧
    path_join_extent "/srv".toList ('/' :: List.replicate 2043 'a') = 2049 ∧
    ¬ path_join_extent "/srv".toList ('/' :: List.replicate 2043 'a') ≤ PATH_SIZE := by
  have e : path_join_extent "/srv".toList ('/' :: List.replicate 2043 'a') = 2049 := by
    unfold path_join_extent strncat_end wrap_size
    rw [List.length_cons, List.length_replicate]
    decide
  refine ⟨by decide, rfl, e, ?_⟩
  rw [e]
  decide

/-! ### `generate_etag` (C7) -/

/-- C7: for stats in the range of their C types, the key `etag-<mtime>-<size>` fits the
128-byte buffer untruncated and two stats have the same key exactly when they agree in
mtime and size; with a collision-free `crypt` the same holds for the tag returned by
`generate_etag`, which is a function of the stat alone. -/
theorem generate_etag_injective (crypt : CStr → CStr → CStr)
    (hcrypt : ∀ k₁ k₂ : CStr,
      (crypt k₁ ETAG_SALT).drop 10 = (crypt k₂ ETAG_SALT).drop 10 → k₁ = k₂)
    (s t : stat) (hs : stat_in_range s) (ht : stat_in_range t) :
    etag_key s = etag_format s ∧ (etag_key s).length + 1 ≤ 128 ∧
    (etag_key s = etag_key t ↔ s.st_mtime = t.st_mtime ∧ s.st_size = t.st_size) ∧
    (generate_etag crypt s = generate_etag crypt t ↔
      s.st_mtime = t.st_mtime ∧ s.st_size = t.st_size) := by
  have key_eq : ∀ u : stat, stat_in_range u → etag_key u = etag_format u := by
    intro u hu
    have := etag_format_length u hu.1 hu.2.1 (by have := hu.2.2; omega)
    unfold etag_key snprintf
    exact List.take_of_length_le (by omega)
  have hlen := etag_format_length s hs.1 hs.2.1 (by have := hs.2.2; omega)
  have hiff : etag_key s = etag_key t ↔ s.st_mtime = t.st_mtime ∧ s.st_size = t.st_size := by
    rw [key_eq s hs, key_eq t ht]
    constructor
    · intro h
      have := etag_format_inj s t h
      subst this
      exact ⟨rfl, rfl⟩
    · rintro ⟨h1, h2⟩
      cases s; cases t; simp_all
  refine ⟨key_eq s hs, ?_, hiff, ?_⟩
  · rw [key_eq s hs]
    omega
  · rw [← hiff]
    constructor
    · intro h
      exact hcrypt _ _ h
    · intro h
      unfold generate_etag
      rw [h]

theorem generate_etag_injective_witness :
    (∀ k₁ k₂ : CStr, (sample_crypt k₁ ETAG_SALT).drop 10
      = (sample_crypt k₂ ETAG_SALT).drop 10 → k₁ = k₂) ∧
    stat_in_range ⟨-5, 10⟩ ∧ stat_in_range ⟨5, 10⟩ ∧
    (etag_key ⟨-5, 10⟩ = etag_format ⟨-5, 10⟩ ∧ (etag_key ⟨-5, 10⟩).length + 1 ≤ 128 ∧
    (etag_key ⟨-5, 10⟩ = etag_key ⟨5, 10⟩ ↔
      (⟨-5, 10⟩ : stat).st_mtime = (⟨5, 10⟩ : stat).st_mtime ∧
      (⟨-5, 10⟩ : stat).st_size = (⟨5, 10⟩ : stat).st_size) ∧
    (generate_etag sample_crypt ⟨-5, 10⟩ = generate_etag sample_crypt ⟨5, 10⟩ ↔
      (⟨-5, 10⟩ : stat).st_mtime = (⟨5, 10⟩ : stat).st_mtime ∧
      (⟨-5, 10⟩ : stat).st_size = (⟨5, 10⟩ : stat).st_size)) :=
  have hc : ∀ k₁ k₂ : CStr, (sample_crypt k₁ ETAG_SALT).drop 10
      = (sample_crypt k₂ ETAG_SALT).drop 10 → k₁ = k₂ := fun _ _ h => h
  have h1 : stat_in_range ⟨-5, 10⟩ := by unfold stat_in_range; decide
  have h2 : stat_in_range ⟨5, 10⟩ := by unfold stat_in_range; decide
  ⟨hc, h1, h2, generate_etag_injective sample_crypt hc ⟨-5, 10⟩ ⟨5, 10⟩ h1 h2⟩

/-! ### Paths through `static_file_handle` -/

theorem static_file_handle_null (env : Env) (req : request_t) (s : State)
    (h : s.ctx = none) : static_file_handle env req s = .error Fault.null_context := by
  unfold static_file_handle
  rw [h]

theorem static_file_handle_fstat_error (env : Env) (req : request_t) (s : State)
    (ctx : handler_ctx_t) (fd e : Nat) (h : s.ctx = some ctx)
    (hp : req.path.head? = some '/')
    (ho : env.sys_open (path_join ctx.conf.root req.path) = .ok fd)
    (hf : env.fstat fd = .error e) :
    static_file_handle env req s =
      .ok (static_file_handler_error
        { s with sys := s.sys ++ [SysEvent.opened fd], errno := env.perror e }) := by
  unfold static_file_handle
  rw [h]
  simp only [hp, ne_eq, not_true_eq_false, if_false, ho, hf]

/-- The response `static_file_handle` passes to `handle_cache`. -/
theorem static_file_handle_not_modified (env : Env) (req : request_t) (s : State)
    (ctx : handler_ctx_t) (fd : Nat) (st : stat) (h : s.ctx = some ctx)
    (hp : req.path.head? = some '/')
    (ho : env.sys_open (path_join ctx.conf.root req.path) = .ok fd)
    (hf : env.fstat fd = .ok st)
    (hc : (handle_cache env req
      (handle_content_type env.mem
        { s.resp with status := STATUS_OK, content_length := st.st_size }
        (path_join ctx.conf.root req.path)) st ctx.conf).1 = true) :
    static_file_handle env req s =
      .ok (response_send_status
        { s with sys := s.sys ++ [SysEvent.opened fd],
                 resp := (handle_cache env req
                   (handle_content_type env.mem
                     { s.resp with status := STATUS_OK, content_length := st.st_size }
                     (path_join ctx.conf.root req.path)) st ctx.conf).2 }
        STATUS_NOT_MODIFIED none) := by
  unfold static_file_handle
  rw [h]
  simp only [hp, ne_eq, not_true_eq_false, if_false, ho, hf, hc, if_true]

theorem static_file_handle_ok (env : Env) (req : request_t) (s : State)
    (ctx : handler_ctx_t) (fd : Nat) (st : stat) (h : s.ctx = some ctx)
    (hp : req.path.head? = some '/')
    (ho : env.sys_open (path_join ctx.conf.root req.path) = .ok fd)
    (hf : env.fstat fd = .ok st)
    (hc : (handle_cache env req
      (handle_content_type env.mem
        { s.resp with status := STATUS_OK, content_length := st.st_size }
        (path_join ctx.conf.root req.path)) st ctx.conf).1 = false) :
    static_file_handle env req s =
      .ok (handler_result.HANDLER_UNFISHED,
        { s with sys := s.sys ++ [SysEvent.opened fd],
                 resp := response_send_headers (handle_cache env req
                   (handle_content_type env.mem
                     { s.resp with status := STATUS_OK, content_length := st.st_size }
                     (path_join ctx.conf.root req.path)) st ctx.conf).2
                   Callback.static_file_write_content,
                 ctx := some (context_push (context_push ctx (ctx_state_t.as_int fd))
                   (ctx_state_t.as_long st.st_size)) }) := by
  unfold static_file_handle
  rw [h]
  simp only [hp, ne_eq, not_true_eq_false, if_false, ho, hf, hc, Bool.false_eq_true]

/-! ### `handle_cache`: the not-modified decision -/

theorem handle_cache_not_modified_iff (env : Env) (req : request_t) (resp : response_t)
    (st : stat) (conf : mod_static_conf_t) :
    (handle_cache env req resp st conf).1 = true ↔
      (∃ v, request_get_header req "if-modified-since".toList = some v ∧
        env.parse_http_date v = some st.st_mtime) ∧
      (conf.enable_etag = 0 ∨
        request_get_header req "if-none-match".toList = some (generate_etag env.crypt st)) := by
  unfold handle_cache
  simp only []
  cases h1 : request_get_header req "if-modified-since".toList with
  | none => by_cases he : conf.enable_etag = 0 <;> simp [he]
  | some v =>
    cases h2 : env.parse_http_date v with
    | none => by_cases he : conf.enable_etag = 0 <;> simp [he, h2]
    | some t =>
      by_cases he : conf.enable_etag = 0
      · simp [he, h2]
      · cases h3 : request_get_header req "if-none-match".toList with
        | none => simp [he, h2]
        | some w =>
          by_cases ht : t = st.st_mtime
          · by_cases hw : generate_etag env.crypt st = w
            · simp [he, h2, ht, hw]
            · simp [he, h2, ht, hw]
              intro hh; exact hw hh.symm
          · simp [he, h2, ht]

/-! ### What header setting leaves alone -/

theorem response_set_header_fields (resp : response_t) (name value : CStr) :
    (response_set_header resp name value).status = resp.status ∧
    (response_set_header resp name value).content_length = resp.content_length ∧
    (response_set_header resp name value).out = resp.out ∧
    (response_set_header resp name value).on_complete = resp.on_complete ∧
    (response_set_header resp name value)._done = resp._done := by
  unfold response_set_header
  split_ifs <;> exact ⟨rfl, rfl, rfl, rfl, rfl⟩

theorem handle_content_type_fields (mem : CStr) (resp : response_t) (filepath : CStr) :
    (handle_content_type mem resp filepath).status = resp.status ∧
    (handle_content_type mem resp filepath).content_length = resp.content_length ∧
    (handle_content_type mem resp filepath).out = resp.out ∧
    (handle_content_type mem resp filepath).on_complete = resp.on_complete ∧
    (handle_content_type mem resp filepath)._done = resp._done := by
  unfold handle_content_type
  split
  · exact ⟨rfl, rfl, rfl, rfl, rfl⟩
  · exact response_set_header_fields _ _ _

theorem handle_cache_fields (env : Env) (req : request_t) (resp : response_t) (st : stat)
    (conf : mod_static_conf_t) :
    (handle_cache env req resp st conf).2.status = resp.status ∧
    (handle_cache env req resp st conf).2.content_length = resp.content_length ∧
    (handle_cache env req resp st conf).2.out = resp.out ∧
    (handle_cache env req resp st conf).2.on_complete = resp.on_complete ∧
    (handle_cache env req resp st conf).2._done = resp._done := by
  unfold handle_cache
  simp only []
  have h := response_set_header_fields
  split_ifs <;>
    simp only [(h _ _ _).1, (h _ _ _).2.1, (h _ _ _).2.2.1, (h _ _ _).2.2.2.1,
      (h _ _ _).2.2.2.2, and_self]

theorem run_static_file_handler_of_idle (env : Env) (req : request_t) (s s' : State)
    (r : handler_result) (h : static_file_handle env req s = .ok (r, s'))
    (hidle : s'.resp.on_complete = none) :
    run_static_file_handler env req s = .ok s' := by
  unfold run_static_file_handler
  rw [h]
  simp only [complete_io, hidle]

/-! ### Conditional GET (C3) -/

/-- C3: `handle_cache` returns not-modified exactly when the request has an
`If-Modified-Since` header that `parse_http_date` accepts with a time equal to the
file's `st_mtime`, and ETag is disabled or the request has an `If-None-Match` header
equal to the generated tag. When open and fstat succeed, `static_file_handle` answers
with a 304 status and no body when it is true, and with the headers of a 200 response
when it is false. With ETag disabled and a matching `If-Modified-Since` the answer is
304; with ETag enabled and no `If-None-Match` it is 200. -/
theorem handle_cache_decides_not_modified (env : Env) (req : request_t) (s : State)
    (ctx : handler_ctx_t) (fd : Nat) (st : stat) (hctx : s.ctx = some ctx)
    (hp : req.path.head? = some '/')
    (ho : env.sys_open (path_join ctx.conf.root req.path) = .ok fd)
    (hf : env.fstat fd = .ok st) :
    (∀ resp : response_t, (handle_cache env req resp st ctx.conf).1 = true ↔
      (∃ v, request_get_header req "if-modified-since".toList = some v ∧
        env.parse_http_date v = some st.st_mtime) ∧
      (ctx.conf.enable_etag = 0 ∨
        request_get_header req "if-none-match".toList
          = some (generate_etag env.crypt st))) ∧
    ((∃ s', static_file_handle env req s = .ok (handler_result.HANDLER_DONE, s') ∧
        s'.resp.out = s.resp.out ++ [Emitted.status_response STATUS_NOT_MODIFIED none]) ↔
      (handle_cache env req
        (handle_content_type env.mem
          { s.resp with status := STATUS_OK, content_length := st.st_size }
          (path_join ctx.conf.root req.path)) st ctx.conf).1 = true) ∧
    ((∃ s' hs, static_file_handle env req s = .ok (handler_result.HANDLER_UNFISHED, s') ∧
        s'.resp.out = s.resp.out ++ [Emitted.header_block STATUS_OK st.st_size hs]) ↔
      (handle_cache env req
        (handle_content_type env.mem
          { s.resp with status := STATUS_OK, content_length := st.st_size }
          (path_join ctx.conf.root req.path)) st ctx.conf).1 = false) ∧
    (ctx.conf.enable_etag = 0 →
      (∃ v, request_get_header req "if-modified-since".toList = some v ∧
        env.parse_http_date v = some st.st_mtime) →
      ∃ s', static_file_handle env req s = .ok (handler_result.HANDLER_DONE, s') ∧
        s'.resp.out = s.resp.out ++ [Emitted.status_response STATUS_NOT_MODIFIED none]) ∧
    (ctx.conf.enable_etag ≠ 0 → request_get_header req "if-none-match".toList = none →
      ∃ s' hs, static_file_handle env req s = .ok (handler_result.HANDLER_UNFISHED, s') ∧
        s'.resp.out = s.resp.out ++ [Emitted.header_block STATUS_OK st.st_size hs]) := by
  have hiff := handle_cache_not_modified_iff env req
  have hfld := handle_cache_fields env req
    (handle_content_type env.mem
      { s.resp with status := STATUS_OK, content_length := st.st_size }
      (path_join ctx.conf.root req.path)) st ctx.conf
  have hct := handle_content_type_fields env.mem
    { s.resp with status := STATUS_OK, content_length := st.st_size }
    (path_join ctx.conf.root req.path)
  have h304 : (handle_cache env req
        (handle_content_type env.mem
          { s.resp with status := STATUS_OK, content_length := st.st_size }
          (path_join ctx.conf.root req.path)) st ctx.conf).1 = true →
      ∃ s', static_file_handle env req s = .ok (handler_result.HANDLER_DONE, s') ∧
        s'.resp.out = s.resp.out ++ [Emitted.status_response STATUS_NOT_MODIFIED none] := by
    intro hc
    rw [static_file_handle_not_modified env req s ctx fd st hctx hp ho hf hc]
    refine ⟨_, rfl, ?_⟩
    simp only [response_send_status, hfld.2.2.1, hct.2.2.1]
  have h200 : (handle_cache env req
        (handle_content_type env.mem
          { s.resp with status := STATUS_OK, content_length := st.st_size }
          (path_join ctx.conf.root req.path)) st ctx.conf).1 = false →
      ∃ s' hs, static_file_handle env req s = .ok (handler_result.HANDLER_UNFISHED, s') ∧
        s'.resp.out = s.resp.out ++ [Emitted.header_block STATUS_OK st.st_size hs] := by
    intro hc
    rw [static_file_handle_ok env req s ctx fd st hctx hp ho hf hc]
    refine ⟨_, (handle_cache env req
        (handle_content_type env.mem
          { s.resp with status := STATUS_OK, content_length := st.st_size }
          (path_join ctx.conf.root req.path)) st ctx.conf).2.headers, rfl, ?_⟩
    simp only [response_send_headers, hfld.1, hfld.2.1, hfld.2.2.1, hct.1, hct.2.1, hct.2.2.1]
  refine ⟨fun resp => hiff resp st ctx.conf, ⟨?_, h304⟩, ⟨?_, h200⟩, ?_, ?_⟩
  · rintro ⟨s', hs', -⟩
    by_contra hc
    rw [Bool.not_eq_true] at hc
    rw [static_file_handle_ok env req s ctx fd st hctx hp ho hf hc] at hs'
    simp at hs'
  · rintro ⟨s', hs, hs', -⟩
    by_contra hc
    rw [Bool.not_eq_false] at hc
    rw [static_file_handle_not_modified env req s ctx fd st hctx hp ho hf hc] at hs'
    simp [response_send_status] at hs'
  · intro he hims
    exact h304 ((hiff _ st ctx.conf).mpr ⟨hims, Or.inl he⟩)
  · intro he hinm
    apply h200
    rw [← Bool.not_eq_true, hiff]
    rintro ⟨-, h | h⟩
    · exact he h
    · rw [hinm] at h
      exact Option.noConfusion h

theorem handle_cache_decides_not_modified_witness :
    sample_state.ctx = some ⟨sample_conf, []⟩ ∧
    sample_conditional_request.path.head? = some '/' ∧
    sample_env.sys_open (path_join sample_conf.root sample_conditional_request.path)
      = .ok 3 ∧
    sample_env.fstat 3 = .ok sample_stat ∧
    ∃ s', static_file_handle sample_env sample_conditional_request sample_state
        = .ok (handler_result.HANDLER_DONE, s') ∧
      s'.resp.out = sample_state.resp.out
        ++ [Emitted.status_response STATUS_NOT_MODIFIED none] :=
  ⟨rfl, rfl, rfl, rfl,
    (handle_cache_decides_not_modified sample_env sample_conditional_request sample_state
      ⟨sample_conf, []⟩ 3 sample_stat rfl rfl rfl rfl).2.2.2.1 rfl
      ⟨"Sun, 06 Nov 1994 08:49:37 GMT".toList, by decide, by decide⟩⟩

/-! ### What each path leaves behind -/

theorem static_file_handle_not_modified_effect (env : Env) (req : request_t) (s : State)
    (ctx : handler_ctx_t) (fd : Nat) (st : stat) (h : s.ctx = some ctx)
    (hp : req.path.head? = some '/')
    (ho : env.sys_open (path_join ctx.conf.root req.path) = .ok fd)
    (hf : env.fstat fd = .ok st)
    (hc : (handle_cache env req
      (handle_content_type env.mem
        { s.resp with status := STATUS_OK, content_length := st.st_size }
        (path_join ctx.conf.root req.path)) st ctx.conf).1 = true) :
    ∃ s', static_file_handle env req s = .ok (handler_result.HANDLER_DONE, s') ∧
      s'.sys = s.sys ++ [SysEvent.opened fd] ∧ s'.ctx = s.ctx ∧
      s'.resp.on_complete = s.resp.on_complete ∧
      s'.resp.out = s.resp.out ++ [Emitted.status_response STATUS_NOT_MODIFIED none] := by
  have hfld := handle_cache_fields env req
    (handle_content_type env.mem
      { s.resp with status := STATUS_OK, content_length := st.st_size }
      (path_join ctx.conf.root req.path)) st ctx.conf
  have hct := handle_content_type_fields env.mem
    { s.resp with status := STATUS_OK, content_length := st.st_size }
    (path_join ctx.conf.root req.path)
  refine ⟨_, static_file_handle_not_modified env req s ctx fd st h hp ho hf hc, rfl, rfl, ?_, ?_⟩
  · simp only [response_send_status, hfld.2.2.2.1, hct.2.2.2.1]
  · simp only [response_send_status, hfld.2.2.1, hct.2.2.1]

theorem static_file_handle_fstat_error_effect (env : Env) (req : request_t) (s : State)
    (ctx : handler_ctx_t) (fd e : Nat) (h : s.ctx = some ctx)
    (hp : req.path.head? = some '/')
    (ho : env.sys_open (path_join ctx.conf.root req.path) = .ok fd)
    (hf : env.fstat fd = .error e) :
    ∃ s', static_file_handle env req s = .ok (handler_result.HANDLER_DONE, s') ∧
      s'.sys = s.sys ++ [SysEvent.opened fd] ∧ s'.ctx = s.ctx ∧
      s'.resp.on_complete = s.resp.on_complete ∧
      s'.resp.out = s.resp.out ++ [Emitted.status_response
        (if env.perror e = EACCES ∨ env.perror e = EISDIR then STATUS_FORBIDDEN
          else STATUS_NOT_FOUND)
        (some (if env.perror e = EACCES ∨ env.perror e = EISDIR then "Access Denied".toList
          else "Requested resource not found".toList))] := by
  rw [static_file_handle_fstat_error env req s ctx fd e h hp ho hf]
  unfold static_file_handler_error response_send_status
  by_cases he : env.perror e = EACCES ∨ env.perror e = EISDIR
  · simp only [he, if_true]
    exact ⟨_, rfl, rfl, rfl, rfl, rfl⟩
  · simp only [he, if_false]
    exact ⟨_, rfl, rfl, rfl, rfl, rfl⟩

theorem static_file_handle_ok_effect (env : Env) (req : request_t) (s : State)
    (ctx : handler_ctx_t) (fd : Nat) (st : stat) (h : s.ctx = some ctx)
    (hp : req.path.head? = some '/')
    (ho : env.sys_open (path_join ctx.conf.root req.path) = .ok fd)
    (hf : env.fstat fd = .ok st)
    (hc : (handle_cache env req
      (handle_content_type env.mem
        { s.resp with status := STATUS_OK, content_length := st.st_size }
        (path_join ctx.conf.root req.path)) st ctx.conf).1 = false) :
    ∃ s' hs, static_file_handle env req s = .ok (handler_result.HANDLER_UNFISHED, s') ∧
      s'.sys = s.sys ++ [SysEvent.opened fd] ∧
      s'.ctx = some ⟨ctx.conf,
        ctx_state_t.as_long st.st_size :: ctx_state_t.as_int fd :: ctx.stack⟩ ∧
      s'.errno = s.errno ∧
      s'.resp.on_complete = some Callback.static_file_write_content ∧
      s'.resp.content_length = st.st_size ∧
      s'.resp.out = s.resp.out ++ [Emitted.header_block STATUS_OK st.st_size hs] := by
  have hfld := handle_cache_fields env req
    (handle_content_type env.mem
      { s.resp with status := STATUS_OK, content_length := st.st_size }
      (path_join ctx.conf.root req.path)) st ctx.conf
  have hct := handle_content_type_fields env.mem
    { s.resp with status := STATUS_OK, content_length := st.st_size }
    (path_join ctx.conf.root req.path)
  refine ⟨_, (handle_cache env req
        (handle_content_type env.mem
          { s.resp with status := STATUS_OK, content_length := st.st_size }
          (path_join ctx.conf.root req.path)) st ctx.conf).2.headers,
    static_file_handle_ok env req s ctx fd st h hp ho hf hc, rfl, rfl, rfl, rfl, ?_, ?_⟩
  · simp only [response_send_headers, hfld.2.1, hct.2.1]
  · simp only [response_send_headers, hfld.1, hfld.2.1, hfld.2.2.1, hct.1, hct.2.1, hct.2.2.1]

theorem sent_status_of_out (r : handler_result) (s : State) (pre : List Emitted) (code : Nat)
    (msg : Option CStr) (h : s.resp.out = pre ++ [Emitted.status_response code msg]) :
    sent_status (.ok (r, s)) = some code := by
  unfold sent_status
  simp only [h, List.getLast?_append, List.getLast?_singleton, Option.or_some]

theorem wrap_size_of_nat (n : Nat) (h : n < 18446744073709551616) :
    wrap_size (n : Int) = n := by
  unfold wrap_size
  omega

theorem static_file_write_content_ok (env : Env) (req : request_t) (s : State)
    (conf : mod_static_conf_t) (n : Nat) (fd : Int) (stack : List ctx_state_t)
    (h : s.ctx = some ⟨conf, ctx_state_t.as_long n :: ctx_state_t.as_int fd :: stack⟩)
    (hn : n < 18446744073709551616) (hs : env.send_file_fails = false) :
    static_file_write_content env req s =
      .ok (handler_result.HANDLER_UNFISHED,
        { s with ctx := some ⟨conf, ctx_state_t.as_int fd :: stack⟩,
                 resp := { s.resp with
                   out := s.resp.out ++ [Emitted.file_range fd 0 n],
                   on_complete := some Callback.static_file_cleanup } }) := by
  unfold static_file_write_content
  rw [h]
  simp only [context_pop, context_peek, List.head?, ctx_state_t.get_long, ctx_state_t.get_int,
    response_send_file, hs, wrap_size_of_nat n hn]
  simp

theorem static_file_write_content_send_error (env : Env) (req : request_t) (s : State)
    (conf : mod_static_conf_t) (n : Nat) (fd : Int) (stack : List ctx_state_t)
    (h : s.ctx = some ⟨conf, ctx_state_t.as_long n :: ctx_state_t.as_int fd :: stack⟩)
    (hs : env.send_file_fails = true) :
    static_file_write_content env req s =
      .ok (response_send_status { s with ctx := some ⟨conf, ctx_state_t.as_int fd :: stack⟩ }
        STATUS_NOT_FOUND (some "Error sending file to client".toList)) := by
  unfold static_file_write_content
  rw [h]
  simp only [context_pop, context_peek, List.head?, ctx_state_t.get_long, ctx_state_t.get_int,
    response_send_file, hs]
  simp

theorem static_file_cleanup_ok (env : Env) (req : request_t) (s : State)
    (conf : mod_static_conf_t) (fd : Int) (stack : List ctx_state_t)
    (h : s.ctx = some ⟨conf, ctx_state_t.as_int fd :: stack⟩) :
    static_file_cleanup env req s =
      .ok (handler_result.HANDLER_DONE,
        { s with ctx := some ⟨conf, stack⟩, sys := s.sys ++ [SysEvent.closed fd] }) := by
  unfold static_file_cleanup
  rw [h]
  simp only [context_pop, ctx_state_t.get_int]

/-! ### The 200 path (C9) -/

/-- C9: on the 200 path, for every initial stack, descriptor and file size,
`static_file_handle` pushes the descriptor, then the size, sets `content_length` to the
size and returns unfinished with `static_file_write_content` as the headers-complete
callback; `static_file_write_content` pops the size, leaves the descriptor on the stack,
starts `response_send_file` with that descriptor, offset 0 and the size, registering
`static_file_cleanup`, and returns unfinished; `static_file_cleanup` pops the descriptor,
closes it and returns done, the context being what it was at the start. -/
theorem static_file_full_transfer (env : Env) (req : request_t) (s : State)
    (ctx : handler_ctx_t) (fd : Nat) (st : stat) (hctx : s.ctx = some ctx)
    (hp : req.path.head? = some '/')
    (ho : env.sys_open (path_join ctx.conf.root req.path) = .ok fd)
    (hf : env.fstat fd = .ok st) (hr : stat_in_range st)
    (hc : (handle_cache env req
      (handle_content_type env.mem
        { s.resp with status := STATUS_OK, content_length := st.st_size }
        (path_join ctx.conf.root req.path)) st ctx.conf).1 = false)
    (hs : env.send_file_fails = false) :
    ∃ s₁ s₂ s₃,
      static_file_handle env req s = .ok (handler_result.HANDLER_UNFISHED, s₁) ∧
      s₁.ctx = some ⟨ctx.conf,
        ctx_state_t.as_long st.st_size :: ctx_state_t.as_int fd :: ctx.stack⟩ ∧
      s₁.resp.on_complete = some Callback.static_file_write_content ∧
      s₁.resp.content_length = st.st_size ∧
      static_file_write_content env req s₁ = .ok (handler_result.HANDLER_UNFISHED, s₂) ∧
      s₂.ctx = some ⟨ctx.conf, ctx_state_t.as_int fd :: ctx.stack⟩ ∧
      s₂.resp.out = s₁.resp.out ++ [Emitted.file_range fd 0 s₁.resp.content_length] ∧
      s₂.resp.on_complete = some Callback.static_file_cleanup ∧
      static_file_cleanup env req s₂ = .ok (handler_result.HANDLER_DONE, s₃) ∧
      s₃.ctx = some ctx ∧
      s₃.sys = s.sys ++ [SysEvent.opened fd, SysEvent.closed fd] ∧
      close_count fd s₃.sys = close_count fd s.sys + 1 := by
  obtain ⟨s₁, hs₁, e₁, hsys₁, hctx₁, -, hcb₁, hlen₁, -⟩ :=
    static_file_handle_ok_effect env req s ctx fd st hctx hp ho hf hc
  have hn : st.st_size < 18446744073709551616 := by
    have := hr.2.2
    omega
  have e₂ := static_file_write_content_ok env req s₁ ctx.conf st.st_size fd ctx.stack
    hctx₁ hn hs
  have e₃ := static_file_cleanup_ok env req
    { s₁ with ctx := some ⟨ctx.conf, ctx_state_t.as_int fd :: ctx.stack⟩,
              resp := { s₁.resp with
                out := s₁.resp.out ++ [Emitted.file_range fd 0 st.st_size],
                on_complete := some Callback.static_file_cleanup } }
    ctx.conf fd ctx.stack rfl
  refine ⟨s₁, _, _, e₁, hctx₁, hcb₁, hlen₁, e₂, rfl, ?_, rfl, e₃, rfl, ?_, ?_⟩
  · rw [hlen₁]
  · simp only [hsys₁, List.append_assoc, List.singleton_append]
  · simp only [hsys₁, close_count, List.count_append, List.count_cons, List.count_nil]
    simp

theorem static_file_full_transfer_witness :
    sample_state.ctx = some ⟨sample_conf, []⟩ ∧
    sample_request.path.head? = some '/' ∧
    sample_env.sys_open (path_join sample_conf.root sample_request.path) = .ok 3 ∧
    sample_env.fstat 3 = .ok sample_stat ∧ stat_in_range sample_stat ∧
    sample_env.send_file_fails = false ∧
    ∃ s₁ s₂ s₃,
      static_file_handle sample_env sample_request sample_state
        = .ok (handler_result.HANDLER_UNFISHED, s₁) ∧
      static_file_write_content sample_env sample_request s₁
        = .ok (handler_result.HANDLER_UNFISHED, s₂) ∧
      s₂.resp.out = s₁.resp.out ++ [Emitted.file_range 3 0 5] ∧
      static_file_cleanup sample_env sample_request s₂
        = .ok (handler_result.HANDLER_DONE, s₃) ∧
      s₃.ctx = some ⟨sample_conf, []⟩ ∧
      s₃.sys = [SysEvent.opened 3, SysEvent.closed 3] := by
  have hr : stat_in_range sample_stat := by
    unfold stat_in_range sample_stat
    decide
  refine ⟨rfl, rfl, rfl, rfl, hr, rfl, ?_⟩
  obtain ⟨s₁, s₂, s₃, h1, -, -, h4, h5, -, h7, -, h9, h10, h11, -⟩ :=
    static_file_full_transfer sample_env sample_request sample_state ⟨sample_conf, []⟩ 3
      sample_stat rfl rfl rfl rfl hr
      (by
        rw [← Bool.not_eq_true, handle_cache_not_modified_iff]
        rintro ⟨⟨v, hv, -⟩, -⟩
        exact Option.noConfusion hv)
      rfl
  refine ⟨s₁, s₂, s₃, h1, h5, ?_, h9, h10, h11⟩
  rw [h7, h4]
  rfl

/-! ### Whole runs of the handler -/

theorem run_static_file_handler_full_transfer (env : Env) (req : request_t) (s : State)
    (ctx : handler_ctx_t) (fd : Nat) (st : stat) (hctx : s.ctx = some ctx)
    (hp : req.path.head? = some '/')
    (ho : env.sys_open (path_join ctx.conf.root req.path) = .ok fd)
    (hf : env.fstat fd = .ok st) (hr : stat_in_range st)
    (hc : (handle_cache env req
      (handle_content_type env.mem
        { s.resp with status := STATUS_OK, content_length := st.st_size }
        (path_join ctx.conf.root req.path)) st ctx.conf).1 = false)
    (hs : env.send_file_fails = false) :
    ∃ s', run_static_file_handler env req s = .ok s' ∧ s'.ctx = some ctx ∧
      s'.sys = s.sys ++ [SysEvent.opened fd, SysEvent.closed fd] ∧
      s'.resp.on_complete = none := by
  obtain ⟨s₁, hs₁, e₁, hsys₁, hctx₁, -, hcb₁, -, -⟩ :=
    static_file_handle_ok_effect env req s ctx fd st hctx hp ho hf hc
  have hn : st.st_size < 18446744073709551616 := by
    have := hr.2.2
    omega
  unfold run_static_file_handler
  rw [e₁]
  simp only [complete_io, hcb₁, run_callback]
  rw [static_file_write_content_ok env req
    { s₁ with resp := { s₁.resp with on_complete := none } } ctx.conf st.st_size fd ctx.stack hctx₁ hn hs]
  simp only [run_callback]
  rw [static_file_cleanup_ok env req _ ctx.conf fd ctx.stack rfl]
  refine ⟨_, rfl, rfl, ?_, rfl⟩
  simp only [hsys₁, List.append_assoc, List.singleton_append]

theorem run_static_file_handler_send_error (env : Env) (req : request_t) (s : State)
    (ctx : handler_ctx_t) (fd : Nat) (st : stat) (hctx : s.ctx = some ctx)
    (hp : req.path.head? = some '/')
    (ho : env.sys_open (path_join ctx.conf.root req.path) = .ok fd)
    (hf : env.fstat fd = .ok st)
    (hc : (handle_cache env req
      (handle_content_type env.mem
        { s.resp with status := STATUS_OK, content_length := st.st_size }
        (path_join ctx.conf.root req.path)) st ctx.conf).1 = false)
    (hs : env.send_file_fails = true) :
    ∃ s', run_static_file_handler env req s = .ok s' ∧
      s'.ctx = some ⟨ctx.conf, ctx_state_t.as_int fd :: ctx.stack⟩ ∧
      s'.sys = s.sys ++ [SysEvent.opened fd] ∧
      s'.resp.on_complete = none := by
  obtain ⟨s₁, hs₁, e₁, hsys₁, hctx₁, -, hcb₁, -, -⟩ :=
    static_file_handle_ok_effect env req s ctx fd st hctx hp ho hf hc
  unfold run_static_file_handler
  rw [e₁]
  simp only [complete_io, hcb₁, run_callback]
  rw [static_file_write_content_send_error env req
    { s₁ with resp := { s₁.resp with on_complete := none } } ctx.conf st.st_size fd ctx.stack hctx₁ hs]
  simp only [response_send_status]
  exact ⟨_, rfl, rfl, hsys₁, rfl⟩

/-! ### Descriptor ownership (C1, C2) -/

/-- C1: three runs of the handler that end without `close(fd)`. On the 304 shortcut
(`If-Modified-Since` equal to the mtime, ETag disabled) and when `fstat` fails,
`static_file_handle` returns `HANDLER_DONE` with descriptor 3 opened and never closed.
When `response_send_file` fails at setup, `static_file_write_content` returns without
scheduling `static_file_cleanup`: the descriptor stays open and stays on the stack. -/
theorem static_file_handler_leaks_descriptor :
    (∃ s', static_file_handle sample_env sample_conditional_request sample_state
          = .ok (handler_result.HANDLER_DONE, s') ∧
        run_static_file_handler sample_env sample_conditional_request sample_state
          = .ok s' ∧
        sent_status (.ok (handler_result.HANDLER_DONE, s')) = some STATUS_NOT_MODIFIED ∧
        s'.sys = [SysEvent.opened 3] ∧ close_count 3 s'.sys = 0) ∧
    (∃ s', static_file_handle (sample_env_fstat_error EBADF) sample_request sample_state
          = .ok (handler_result.HANDLER_DONE, s') ∧
        run_static_file_handler (sample_env_fstat_error EBADF) sample_request sample_state
          = .ok s' ∧
        sent_status (.ok (handler_result.HANDLER_DONE, s')) = some STATUS_NOT_FOUND ∧
        s'.sys = [SysEvent.opened 3] ∧ close_count 3 s'.sys = 0) ∧
    (∃ s', run_static_file_handler sample_env_send_error sample_request sample_state
          = .ok s' ∧
        s'.resp.on_complete = none ∧
        s'.sys = [SysEvent.opened 3] ∧ close_count 3 s'.sys = 0 ∧
        s'.ctx = some ⟨sample_conf, [ctx_state_t.as_int 3]⟩) := by
  refine ⟨?_, ?_, ?_⟩
  · obtain ⟨s', h, hsys, -, hcb, hout⟩ :=
      static_file_handle_not_modified_effect sample_env sample_conditional_request
        sample_state ⟨sample_conf, []⟩ 3 sample_stat rfl rfl rfl rfl
        ((handle_cache_not_modified_iff _ _ _ _ _).mpr
          ⟨⟨"Sun, 06 Nov 1994 08:49:37 GMT".toList, by decide, by decide⟩, Or.inl rfl⟩)
    refine ⟨s', h, run_static_file_handler_of_idle _ _ _ _ _ h (hcb.trans rfl),
      sent_status_of_out _ _ _ _ _ hout, hsys.trans rfl, ?_⟩
    rw [hsys]
    rfl
  · obtain ⟨s', h, hsys, -, hcb, hout⟩ :=
      static_file_handle_fstat_error_effect (sample_env_fstat_error EBADF) sample_request
        sample_state ⟨sample_conf, []⟩ 3 EBADF rfl rfl rfl rfl
    refine ⟨s', h, run_static_file_handler_of_idle _ _ _ _ _ h (hcb.trans rfl),
      sent_status_of_out _ _ _ _ _ hout, hsys.trans rfl, ?_⟩
    rw [hsys]
    rfl
  · obtain ⟨s', h, hctx, hsys, hcb⟩ :=
      run_static_file_handler_send_error sample_env_send_error sample_request
        sample_state ⟨sample_conf, []⟩ 3 sample_stat rfl rfl rfl rfl
        (by
          rw [← Bool.not_eq_true, handle_cache_not_modified_iff]
          rintro ⟨⟨v, hv, -⟩, -⟩
          exact Option.noConfusion hv)
        rfl
    refine ⟨s', h, hcb, hsys.trans rfl, ?_, hctx⟩
    rw [hsys]
    rfl

/-- C2: the close hook leaves every connection state as it is. For the state the 200
path is in after `static_file_handle` (descriptor 3 opened and pushed, the transfer
outstanding), the descriptor is still on the stack and still not closed after the hook
has run. -/
theorem connection_close_handler_releases_nothing :
    (∀ c : ConnState, _connection_close_handler c = c) ∧
    (∃ s₁, static_file_handle sample_env sample_request sample_state
        = .ok (handler_result.HANDLER_UNFISHED, s₁) ∧
      s₁.ctx = some ⟨sample_conf, [ctx_state_t.as_long 5, ctx_state_t.as_int 3]⟩ ∧
      s₁.sys = [SysEvent.opened 3] ∧
      (_connection_close_handler ⟨sample_conn, s₁.ctx, s₁.errno, s₁.sys, true⟩).ctx
        = some ⟨sample_conf, [ctx_state_t.as_long 5, ctx_state_t.as_int 3]⟩ ∧
      close_count 3
        (_connection_close_handler ⟨sample_conn, s₁.ctx, s₁.errno, s₁.sys, true⟩).sys = 0) := by
  refine ⟨fun _ => rfl, ?_⟩
  obtain ⟨s₁, hs, h, hsys, hctx, -⟩ :=
    static_file_handle_ok_effect sample_env sample_request
      sample_state ⟨sample_conf, []⟩ 3 sample_stat rfl rfl rfl rfl
      (by
        rw [← Bool.not_eq_true, handle_cache_not_modified_iff]
        rintro ⟨⟨v, hv, -⟩, -⟩
        exact Option.noConfusion hv)
  refine ⟨s₁, h, hctx.trans rfl, hsys.trans rfl, ?_, ?_⟩
  · unfold _connection_close_handler
    exact hctx.trans rfl
  · unfold _connection_close_handler
    simp only [hsys]
    rfl

/-! ### The engine's handler invocation (C8) -/

/-- C8: for every connection whose request head parsed completely, on a server whose
handler is `static_file_handle`, `_on_http_header_data` does not get past the handler's
first step: `connection_run_handler` passes `NULL` as the context, and reading
`ctx->conf` faults. A handler that returns the state it was given shows the context it
received: none. -/
theorem connection_run_handler_null_context (env : Env) (conf : mod_static_conf_t)
    (stored parsed : request_t) (resp : response_t) (ctx : Option handler_ctx_t)
    (errno : Nat) (sys : List SysEvent) (data : CStr) :
    _on_http_header_data env (fun _ _ => some parsed)
        ⟨⟨⟨static_file_handle, conf⟩, some stored, some resp⟩, ctx, errno, sys, false⟩ data
      = .error Fault.null_context ∧
    connection_run_handler env
        ⟨⟨⟨static_file_handle, conf⟩, some parsed, some resp⟩, ctx, errno, sys, false⟩
        static_file_handle
      = .error Fault.null_context ∧
    (connection_run_handler env
        ⟨⟨⟨static_file_handle, conf⟩, some parsed, some resp⟩, ctx, errno, sys, false⟩
        (fun _ _ s => .ok (handler_result.HANDLER_UNFISHED, s))).map (fun c => c.ctx)
      = .ok none := by
  refine ⟨?_, ?_, ?_⟩
  · simp only [_on_http_header_data, connection_run_handler, static_file_handle]
  · simp only [connection_run_handler, static_file_handle]
  · simp only [connection_run_handler]
    rfl

/-! ### Failed path resolution (C4) -/

theorem find_replaced (name value : CStr) :
    ∀ l : List (CStr × CStr), l.any (fun h => h.1 = name) = true →
      ((l.map (fun h => if h.1 = name then (name, value) else h)).find?
        (fun h => h.1 = name)).map (fun h => h.2) = some value
  | [], h => by simp at h
  | a :: t, h => by
    by_cases ha : a.1 = name
    · simp [ha]
    · have ht : t.any (fun h => h.1 = name) = true := by
        simpa [ha] using h
      have ih := find_replaced name value t ht
      simpa [ha] using ih

theorem find_replaced_other (name value other : CStr) (hne : name ≠ other) :
    ∀ l : List (CStr × CStr),
      (l.map (fun h => if h.1 = name then (name, value) else h)).find?
        (fun h => h.1 = other) = l.find? (fun h => h.1 = other)
  | [] => rfl
  | a :: t => by
    have ih := find_replaced_other name value other hne t
    by_cases ha : a.1 = name
    · have hao : a.1 ≠ other := fun h => hne (ha.symm.trans h)
      rw [List.map_cons, if_pos ha, List.find?_cons_of_neg _ (by simpa using hne),
        List.find?_cons_of_neg _ (by simpa using hao), ih]
    · by_cases hao : a.1 = other
      · rw [List.map_cons, if_neg ha, List.find?_cons_of_pos _ (by simpa using hao),
          List.find?_cons_of_pos _ (by simpa using hao)]
      · rw [List.map_cons, if_neg ha, List.find?_cons_of_neg _ (by simpa using hao),
          List.find?_cons_of_neg _ (by simpa using hao), ih]

theorem response_header_set_same (resp : response_t) (name value : CStr)
    (h : resp._done = false) :
    response_header (response_set_header resp name value) name = some value := by
  unfold response_header response_set_header
  rw [h]
  by_cases hany : resp.headers.any (fun h => h.1 = name) = true
  · simp only [Bool.false_eq_true, if_false, hany, if_true]
    exact find_replaced name value resp.headers hany
  · simp only [Bool.false_eq_true, if_false, hany]
    have hnone : resp.headers.find? (fun h => h.1 = name) = none := by
      rw [List.find?_eq_none]
      intro x hx hxn
      apply hany
      rw [List.any_eq_true]
      exact ⟨x, hx, hxn⟩
    simp [List.find?_append, hnone]

theorem response_header_set_other (resp : response_t) (name value other : CStr)
    (hne : name ≠ other) :
    response_header (response_set_header resp name value) other
      = response_header resp other := by
  unfold response_header response_set_header
  split_ifs
  · rfl
  · simp only [find_replaced_other name value other hne]
  · simp [List.find?_append, hne]

theorem wrap32_overflow : wrap32 (596524 * 3600) = -2147480896 := by
  unfold wrap32
  decide

theorem max_age_overflow :
    snprintf 20 ("max-age=".toList ++ fmt_signed (-2147480896))
      = "max-age=-2147480896".toList := by
  have h : fmt_signed (-2147480896) = "-2147480896".toList := by
    norm_num [fmt_signed, fmt_unsigned]
    decide
  rw [h]
  decide

/-! ### Cache-Control and Expires (C5) -/

/-- C5: with `expire_hours = 596524`, a non-negative `int`, the product
`expire_hours * 3600 = 2147486400` does not fit a 32-bit `int`: for every request, stat
and response not yet done, `handle_cache` sets Cache-Control to `max-age=-2147480896`,
not to `max-age=2147486400`, and sets Expires to the date of `mtime - 2147480896`. -/
theorem handle_cache_max_age_overflow (env : Env) (req : request_t) (resp : response_t)
    (st : stat) (root : CStr) (list_dir etag range_req : Int) :
    (0 : Int) ≤ 596524 ∧
    response_header
      (handle_cache env req { resp with _done := false } st
        ⟨root, list_dir, etag, range_req, 596524⟩).2 "Cache-Control".toList
      = some "max-age=-2147480896".toList ∧
    "max-age=-2147480896".toList ≠ "max-age=".toList ++ "2147486400".toList ∧
    response_header
      (handle_cache env req { resp with _done := false } st
        ⟨root, list_dir, etag, range_req, 596524⟩).2 "Expires".toList
      = some (env.format_http_date (wrap64 (st.st_mtime + -2147480896))) := by
  have hd := fun r n v => (response_set_header_fields r n v).2.2.2.2
  have hne : "Expires".toList ≠ "Cache-Control".toList := by decide
  refine ⟨by decide, ?_, by decide, ?_⟩
  · unfold handle_cache
    simp only [wrap32_overflow, max_age_overflow]
    split_ifs <;>
      first
        | exact response_header_set_same _ _ _ (by simp only [hd])
        | (exfalso; omega)
  · unfold handle_cache
    simp only [wrap32_overflow, max_age_overflow]
    split_ifs <;>
      first
        | (rw [response_header_set_other _ _ _ _ (Ne.symm hne)]
           exact response_header_set_same _ _ _ (by simp only [hd]))
        | (exfalso; omega)

/-! ### The MIME table -/

theorem mod_static_init_keys :
    mod_static_init.entries.map (fun e => e.1) = registered_exts := by
  decide

theorem hsearch_find_registered :
    ∀ k ∈ registered_exts, hsearch_find k mod_static_init = registered_type k := by
  decide

theorem registered_exts_shape :
    ∀ k ∈ registered_exts, k.length < 20 ∧ '/' ∉ k := by
  decide

theorem registered_type_eq_none (k : CStr) (h : k ∉ registered_exts) :
    registered_type k = none := by
  unfold registered_type
  rw [Option.map_eq_none', List.find?_eq_none]
  intro row hrow hk
  apply h
  unfold registered_exts
  rw [List.mem_flatMap]
  exact ⟨row, hrow, by simpa using hk⟩

theorem hsearch_find_eq_none (k : CStr) (h : k ∉ registered_exts) :
    hsearch_find k mod_static_init = none := by
  unfold hsearch_find
  rw [Option.map_eq_none', List.find?_eq_none]
  intro e he hk
  apply h
  rw [← mod_static_init_keys, List.mem_map]
  exact ⟨e, he, by simpa using hk⟩

/-- The table `mod_static_init` builds answers as `standard_types` lists. -/
theorem hsearch_find_eq_registered_type (k : CStr) :
    hsearch_find k mod_static_init = registered_type k := by
  by_cases h : k ∈ registered_exts
  · exact hsearch_find_registered k h
  · rw [hsearch_find_eq_none k h, registered_type_eq_none k h]

theorem registered_type_none_of_shape (k : CStr) (h : 20 ≤ k.length ∨ '/' ∈ k) :
    registered_type k = none := by
  apply registered_type_eq_none
  intro hk
  have := registered_exts_shape k hk
  rcases h with h | h
  · omega
  · exact this.2 h

/-! ### The dot scan -/

theorem scan_dot_some (p : CStr) : ∀ (k i : Nat), scan_dot p k = some i →
    p[i]? = some '.' ∧ 1 ≤ i ∧ i ≤ k ∧ ∀ j, i < j → j ≤ k → p[j]? ≠ some '.'
  | 0, i, h => by simp [scan_dot] at h
  | k + 1, i, h => by
    unfold scan_dot at h
    by_cases hd : p[k + 1]? = some '.'
    · rw [if_pos hd] at h
      have hi : k + 1 = i := Option.some.inj h
      subst hi
      exact ⟨hd, by omega, le_refl _, fun j h1 h2 => by omega⟩
    · rw [if_neg hd] at h
      obtain ⟨h1, h2, h3, h4⟩ := scan_dot_some p k i h
      refine ⟨h1, h2, by omega, fun j hj1 hj2 => ?_⟩
      by_cases hj : j = k + 1
      · rw [hj]
        exact hd
      · exact h4 j hj1 (by omega)

theorem scan_dot_none (p : CStr) : ∀ k : Nat, scan_dot p k = none →
    ∀ j, 1 ≤ j → j ≤ k → p[j]? ≠ some '.'
  | 0, _ => fun j h1 h2 => by omega
  | k + 1, h => by
    unfold scan_dot at h
    by_cases hd : p[k + 1]? = some '.'
    · rw [if_pos hd] at h
      exact Option.noConfusion h
    · rw [if_neg hd] at h
      intro j h1 h2
      by_cases hj : j = k + 1
      · rw [hj]
        exact hd
      · exact scan_dot_none p k h j h1 (by omega)

/-- The scan finds the last dot, when it is not the first character. -/
theorem dot_pos_of_last_dot (a b : CStr) (ha : a ≠ []) (hb : '.' ∉ b) :
    dot_pos (a ++ '.' :: b) = some a.length := by
  have hlen : (a ++ '.' :: b).length - 1 = a.length + b.length := by
    simp only [List.length_append, List.length_cons]
    omega
  have ha1 : 1 ≤ a.length := by
    cases a with
    | nil => exact absurd rfl ha
    | cons x t => simp
  have hat : (a ++ '.' :: b)[a.length]? = some '.' := by
    rw [List.getElem?_append_right (le_refl _)]
    simp
  have hafter : ∀ j, a.length < j → (a ++ '.' :: b)[j]? ≠ some '.' := by
    intro j hj hdot
    rw [List.getElem?_append_right (by omega)] at hdot
    obtain ⟨m, hm⟩ : ∃ m, j - a.length = m + 1 := ⟨j - a.length - 1, by omega⟩
    rw [hm, List.getElem?_cons_succ] at hdot
    exact hb (List.getElem?_mem hdot)
  unfold dot_pos
  rw [hlen]
  cases h : scan_dot (a ++ '.' :: b) (a.length + b.length) with
  | none =>
    exact absurd hat (scan_dot_none _ _ h a.length ha1 (by omega))
  | some i =>
    obtain ⟨h1, -, -, h4⟩ := scan_dot_some _ _ _ h
    by_cases hlt : i < a.length
    · exact absurd hat (h4 a.length hlt (by omega))
    · by_cases hgt : a.length < i
      · exact absurd h1 (hafter i hgt)
      · have : i = a.length := by omega
        rw [this]

/-! ### Splitting at the last separator -/

theorem exists_last_split (c : Char) : ∀ l : CStr, c ∈ l →
    ∃ a b, l = a ++ c :: b ∧ c ∉ b
  | [], h => by simp at h
  | x :: t, h => by
    by_cases ht : c ∈ t
    · obtain ⟨a, b, hab, hb⟩ := exists_last_split c t ht
      exact ⟨x :: a, b, by rw [hab, List.cons_append], hb⟩
    · have hx : c = x := by
        rcases List.mem_cons.mp h with h | h
        · exact h
        · exact absurd h ht
      exact ⟨[], t, by rw [hx, List.nil_append], ht⟩

theorem takeWhile_ne_append (c : Char) : ∀ (x y : CStr), c ∉ x →
    (x ++ c :: y).takeWhile (fun e => e ≠ c) = x
  | [], y, _ => by simp [List.takeWhile]
  | e :: x, y, h => by
    have he : e ≠ c := fun hh => h (hh ▸ List.mem_cons_self _ _)
    have ih := takeWhile_ne_append c x y (fun hm => h (List.mem_cons_of_mem _ hm))
    have hd : decide (e ≠ c) = true := decide_eq_true he
    simp only [List.cons_append, List.takeWhile_cons, hd, if_true, ih]

theorem after_last_split (c : Char) (a b : CStr) (hb : c ∉ b) :
    ((a ++ c :: b).reverse.takeWhile (fun e => e ≠ c)).reverse = b := by
  have hr : (a ++ c :: b).reverse = b.reverse ++ c :: a.reverse := by simp
  rw [hr, takeWhile_ne_append c _ _ (fun hm => hb (List.mem_reverse.mp hm)),
    List.reverse_reverse]

/-! ### Content type by extension (C6) -/

theorem strlowercase_length (s : CStr) (n : Nat) : (strlowercase s n).length = s.length := by
  unfold strlowercase lowercase
  rw [List.length_append, List.length_map, ← List.length_append, List.take_append_drop]

theorem strlowercase_short (s : CStr) (h : s.length ≤ 20) :
    strlowercase s 20 = lowercase s := by
  unfold strlowercase
  rw [List.take_of_length_le h, List.drop_of_length_le h, List.append_nil]

theorem slash_mem_lowercase (s : CStr) (h : '/' ∈ s) : '/' ∈ lowercase s :=
  List.mem_map.mpr ⟨'/', h, by decide⟩

/-- The key looked up for a source string that is too long for `ext`, or that contains a
`/`, is not registered. -/
theorem lookup_key_unregistered (src mem : CStr) (h : 20 ≤ src.length ∨ '/' ∈ src) :
    hsearch_find (strlowercase (strncpy_ext src mem) 20) mod_static_init = none := by
  rw [hsearch_find_eq_registered_type]
  apply registered_type_none_of_shape
  by_cases hl : src.length < 20
  · right
    have hs : '/' ∈ src := by
      rcases h with h | h
      · omega
      · exact h
    unfold strncpy_ext
    rw [if_pos hl, strlowercase_short _ (by omega)]
    exact slash_mem_lowercase _ hs
  · left
    rw [strlowercase_length]
    unfold strncpy_ext
    rw [if_neg hl, List.length_append, List.length_take]
    omega

theorem final_segment_of_split (pre seg : CStr) (h : '/' ∉ seg) :
    final_segment (pre ++ '/' :: seg) = seg := by
  unfold final_segment
  exact after_last_split '/' pre seg h

/-- For a path with a `/` in it, the lookup of `handle_content_type` finds what the
spec's extension rule finds. -/
theorem lookup_content_type_eq_spec (mem root rest : CStr) :
    lookup_content_type mem (root ++ '/' :: rest) = spec_content_type (root ++ '/' :: rest) := by
  obtain ⟨pre, seg, hp, hseg⟩ := exists_last_split '/' (root ++ '/' :: rest)
    (List.mem_append_right _ (List.mem_cons_self _ _))
  rw [hp]
  have hfs := final_segment_of_split pre seg hseg
  by_cases hdot : '.' ∈ seg
  · obtain ⟨s₁, e, hs, he⟩ := exists_last_split '.' seg hdot
    have hext : extension (pre ++ '/' :: seg) = some e := by
      unfold extension
      rw [hfs, if_pos hdot, hs, after_last_split '.' s₁ e he]
    have hsplit : pre ++ '/' :: seg = (pre ++ '/' :: s₁) ++ '.' :: e := by
      rw [hs, List.append_assoc, List.cons_append]
    have hpos : dot_pos (pre ++ '/' :: seg) = some (pre ++ '/' :: s₁).length := by
      rw [hsplit]
      exact dot_pos_of_last_dot _ _ (by simp) he
    have hdrop : (pre ++ '/' :: seg).drop (1 + (pre ++ '/' :: s₁).length) = e := by
      have : pre ++ '/' :: seg = ((pre ++ '/' :: s₁) ++ ['.']) ++ e := by
        rw [hsplit]
        simp
      rw [this]
      exact List.drop_left' (by simp; omega)
    unfold lookup_content_type spec_content_type
    rw [hpos, hext]
    simp only [hdrop, Option.some_bind]
    by_cases hl : e.length < 20
    · rw [hsearch_find_eq_registered_type]
      unfold strncpy_ext
      rw [if_pos hl, strlowercase_short _ (by omega)]
    · rw [lookup_key_unregistered e mem (Or.inl (by omega))]
      symm
      apply registered_type_none_of_shape
      left
      unfold lowercase
      rw [List.length_map]
      omega
  · have hext : extension (pre ++ '/' :: seg) = none := by
      unfold extension
      rw [hfs, if_neg hdot]
    unfold lookup_content_type spec_content_type
    rw [hext]
    simp only [Option.none_bind]
    cases hpos : dot_pos (pre ++ '/' :: seg) with
    | none => rfl
    | some i =>
      simp only []
      obtain ⟨h1, h2, -, -⟩ := scan_dot_some _ _ _ hpos
      have hi : i < pre.length := by
        by_contra hge
        rw [List.getElem?_append_right (by omega)] at h1
        by_cases h0 : i - pre.length = 0
        · rw [h0] at h1
          simp at h1
        · obtain ⟨m, hm⟩ : ∃ m, i - pre.length = m + 1 := ⟨i - pre.length - 1, by omega⟩
          rw [hm, List.getElem?_cons_succ] at h1
          exact hdot (List.getElem?_mem h1)
      apply lookup_key_unregistered
      right
      rw [List.drop_append_of_le_length (by omega)]
      exact List.mem_append_right _ (List.mem_cons_self _ _)

/-- C6: for every path with a `/` in it, as every resolved path has (the document root
followed by a request path that starts with `/`), `handle_content_type` sets
Content-Type to the type `standard_types` lists for the lower-cased substring after the
last `.` of the final path segment, and leaves the response as it is when that segment
has no `.` or the extension is not listed. `/index.html` and `/INDEX.HTML` give
`text/html`; `/srv/www.d/readme` gives none. -/
theorem handle_content_type_by_extension (mem : CStr) (resp : response_t)
    (root rest : CStr) :
    handle_content_type mem resp (root ++ '/' :: rest) =
      (match spec_content_type (root ++ '/' :: rest) with
        | none => resp
        | some content_type =>
          response_set_header resp "Content-Type".toList content_type) ∧
    lookup_content_type mem "/index.html".toList = some "text/html".toList ∧
    lookup_content_type mem "/INDEX.HTML".toList = some "text/html".toList ∧
    lookup_content_type mem "/srv/www.d/readme".toList = none ∧
    handle_content_type mem resp "/srv/www.d/readme".toList = resp := by
  have h1 : lookup_content_type mem "/index.html".toList = some "text/html".toList := by
    rw [show "/index.html".toList = [] ++ '/' :: "index.html".toList from rfl,
      lookup_content_type_eq_spec]
    decide
  have h2 : lookup_content_type mem "/INDEX.HTML".toList = some "text/html".toList := by
    rw [show "/INDEX.HTML".toList = [] ++ '/' :: "INDEX.HTML".toList from rfl,
      lookup_content_type_eq_spec]
    decide
  have h3 : lookup_content_type mem "/srv/www.d/readme".toList = none := by
    rw [show "/srv/www.d/readme".toList = [] ++ '/' :: "srv/www.d/readme".toList from rfl,
      lookup_content_type_eq_spec]
    decide
  refine ⟨?_, h1, h2, h3, ?_⟩
  · unfold handle_content_type
    rw [lookup_content_type_eq_spec]
  · unfold handle_content_type
    rw [h3]

/-! ### Cache-Control within the range of `int` -/

theorem fmt_unsigned_length_int (n : Nat) (h : n < 2147483648) :
    (fmt_unsigned n).length ≤ 10 := by
  unfold fmt_unsigned
  split
  · simp
  · rename_i hn
    simp only [List.length_map, List.length_reverse]
    have h1 := Nat.base_pow_length_digits_le 10 n (by norm_num) hn
    by_contra hlen
    have h2 : 10 ^ 11 ≤ 10 ^ (Nat.digits 10 n).length :=
      Nat.pow_le_pow_right (by norm_num) (by omega)
    have h3 : (10 : Nat) ^ 11 = 100000000000 := by norm_num
    omega

/-- While `expire_hours * 3600` fits an `int` (`expire_hours ≤ 596523`), Cache-Control is
`max-age=` followed by the exact product, untruncated, and Expires is the date of
`mtime + expire_hours * 3600` (as a `time_t`). -/
theorem handle_cache_max_age_in_range (env : Env) (req : request_t) (resp : response_t)
    (st : stat) (conf : mod_static_conf_t) (hd : resp._done = false)
    (h0 : 0 ≤ conf.expire_hours) (h1 : conf.expire_hours ≤ 596523) :
    response_header (handle_cache env req resp st conf).2 "Cache-Control".toList
      = some ("max-age=".toList ++ fmt_unsigned (conf.expire_hours * 3600).toNat) ∧
    response_header (handle_cache env req resp st conf).2 "Expires".toList
      = some (env.format_http_date (wrap64 (st.st_mtime + conf.expire_hours * 3600))) := by
  have hw : wrap32 (conf.expire_hours * 3600) = conf.expire_hours * 3600 := by
    unfold wrap32
    omega
  have hfmt : fmt_signed (conf.expire_hours * 3600)
      = fmt_unsigned (conf.expire_hours * 3600).toNat := by
    unfold fmt_signed
    rw [if_neg (by omega)]
    congr 1
    omega
  have hlen := fmt_unsigned_length_int (conf.expire_hours * 3600).toNat (by omega)
  have hsn : snprintf 20 ("max-age=".toList ++ fmt_unsigned (conf.expire_hours * 3600).toNat)
      = "max-age=".toList ++ fmt_unsigned (conf.expire_hours * 3600).toNat := by
    unfold snprintf
    apply List.take_of_length_le
    rw [List.length_append]
    have : "max-age=".toList.length = 8 := by decide
    omega
  have hdone := fun r n v => (response_set_header_fields r n v).2.2.2.2
  have hne : "Cache-Control".toList ≠ "Expires".toList := by decide
  constructor
  · unfold handle_cache
    simp only [hw, hfmt, hsn, h0, if_true]
    split_ifs <;> exact response_header_set_same _ _ _ (by simp only [hdone, hd])
  · unfold handle_cache
    simp only [hw, hfmt, hsn, h0, if_true]
    split_ifs <;>
      (rw [response_header_set_other _ _ _ _ hne]
       exact response_header_set_same _ _ _ (by simp only [hdone, hd]))

/-- A negative `expire_hours` gives `no-cache` and leaves Expires as it was. -/
theorem handle_cache_no_cache (env : Env) (req : request_t) (resp : response_t)
    (st : stat) (conf : mod_static_conf_t) (hd : resp._done = false)
    (hneg : conf.expire_hours < 0) :
    response_header (handle_cache env req resp st conf).2 "Cache-Control".toList
      = some "no-cache".toList ∧
    response_header (handle_cache env req resp st conf).2 "Expires".toList
      = response_header resp "Expires".toList := by
  have hdone := fun r n v => (response_set_header_fields r n v).2.2.2.2
  have hn : ¬ (0 ≤ conf.expire_hours) := by omega
  have h1 : "Cache-Control".toList ≠ "Expires".toList := by decide
  have h2 : "ETag".toList ≠ "Expires".toList := by decide
  have h3 : "Last-Modified".toList ≠ "Expires".toList := by decide
  constructor
  · unfold handle_cache
    simp only [hn, if_false]
    split_ifs <;> exact response_header_set_same _ _ _ (by simp only [hdone, hd])
  · unfold handle_cache
    simp only [hn, if_false]
    split_ifs <;>
      simp only [response_header_set_other _ _ _ _ h1, response_header_set_other _ _ _ _ h2,
        response_header_set_other _ _ _ _ h3]

/-- The resolved path is the document root followed by a string that starts with `/`. -/
theorem path_join_shape (root rest : CStr) (h : root.length ≤ 1023) :
    path_join root ('/' :: rest) = root ++ '/' :: rest.take (2047 - root.length) := by
  unfold path_join strncat wrap_size
  have e : ((2048 - (root.length : Int)) % 18446744073709551616).toNat
      = (2047 - root.length) + 1 := by omega
  rw [e, List.take_succ_cons]

end Breeze
